import Mathlib

/-!
Verification development for the funnylog2 call-tracing library
(src/funnylog2/__init__.py).

The Python source is shallowly embedded below.  Python values that the
traced code inspects (truthiness, str(), allure's represent()) are
modelled by the inductive type `PyVal`; `PyVal.emptyMarker` stands for
the class `inspect._empty` (the value of `inspect.Parameter.empty`,
i.e. the `default` of a parameter that has no declared default).  Note
that in Python `inspect._empty` is a class and classes are truthy, and
`str(inspect._empty)` is the text `<class 'inspect._empty'>`.

String primitives (split, join, strip, startswith, ...) are implemented
here by structural recursion on the character list so that every
definition evaluates inside the kernel; each one documents the Python
operation it models.
-/

namespace Funnylog2

/-- Model of the Python values flowing through the tracer: ints, strings,
booleans, `None`, the `inspect.Parameter.empty` marker class, and opaque
objects (receivers) identified by a tag. -/
inductive PyVal where
| vint (n : Int)
| vstr (s : String)
| vbool (b : Bool)
| vnone
| emptyMarker
| obj (id : Nat)
deriving DecidableEq

/-- Python `str()` on the modelled values.  `str(inspect._empty)` is
`<class 'inspect._empty'>`; an opaque object stringifies to an
address-like tag. -/
def pyStr : PyVal → String
| PyVal.vint n => toString n
| PyVal.vstr s => s
| PyVal.vbool b => if b then "True" else "False"
| PyVal.vnone => "None"
| PyVal.emptyMarker => "<class \x27inspect._empty\x27>"
| PyVal.obj id => "<object " ++ toString id ++ ">"

/-- allure_commons.utils.represent: strings are wrapped in single
quotes, everything else uses its repr (which coincides with `pyStr`
on the modelled values). -/
def represent : PyVal → String
| PyVal.vstr s => "\x27" ++ s ++ "\x27"
| v => pyStr v

/-- Python truthiness of the modelled values.  The `inspect._empty`
marker is a class, hence truthy. -/
def pyTruthy : PyVal → Bool
| PyVal.vint n => decide (n ≠ 0)
| PyVal.vstr s => !s.isEmpty
| PyVal.vbool b => b
| PyVal.vnone => false
| PyVal.emptyMarker => true
| PyVal.obj _ => true

/-- Python `s.startswith(p)`. -/
def pyStartsWith (s p : String) : Bool :=
  p.data.isPrefixOf s.data

/-- Python `s.endswith(p)`. -/
def pyEndsWith (s p : String) : Bool :=
  p.data.reverse.isPrefixOf s.data.reverse

/-- Python `s.strip("'")`: remove every leading and trailing single
quote character. -/
def stripQuotes (s : String) : String :=
  let l := s.data.dropWhile (fun c => c == Char.ofNat 39)
  String.mk ((l.reverse.dropWhile (fun c => c == Char.ofNat 39)).reverse)

/-- Whitespace recognized by Python `str.strip()` (the variants that
occur in doc strings: space, tab, newline, carriage return). -/
def isPySpace (c : Char) : Bool :=
  c == Char.ofNat 32 || c == Char.ofNat 9 || c == Char.ofNat 10 || c == Char.ofNat 13

/-- Python `s.strip()`: remove leading and trailing whitespace. -/
def pyStrip (s : String) : String :=
  let l := s.data.dropWhile isPySpace
  String.mk ((l.reverse.dropWhile isPySpace).reverse)

/-- Worker for `pySplit`: splits a character list at every
non-overlapping occurrence of `sep` (nonempty), scanning left to
right.  The fuel argument (instantiated with the list length) makes
the recursion structural, so it evaluates in the kernel. -/
def splitGo (sep : List Char) : Nat → List Char → List (List Char)
| _, [] => [[]]
| 0, l => [l]
| fuel + 1, c :: cs =>
  if sep.isPrefixOf (c :: cs) then
    [] :: splitGo sep fuel ((c :: cs).drop sep.length)
  else
    match splitGo sep fuel cs with
    | [] => [[c]]
    | p :: ps => (c :: p) :: ps

/-- Python `s.split(sep)` for a nonempty separator. -/
def pySplit (s sep : String) : List String :=
  if sep.isEmpty then [s]
  else (splitGo sep.data s.data.length s.data).map String.mk

/-- Python `sep.join(parts)`. -/
def pyJoin (sep : String) : List String → String
| [] => ""
| [x] => x
| x :: xs => x ++ sep ++ pyJoin sep xs

/-- Python `t.replace(pat, rep)` for a nonempty pattern: replace every
non-overlapping occurrence, left to right
(`t.replace(pat, rep) = rep.join(t.split(pat))`). -/
def pyReplace (t pat rep : String) : String :=
  pyJoin rep (pySplit t pat)

/-- Python `needle in hay` on strings: the empty needle is contained in
everything, otherwise containment is equivalent to the split producing
more than one piece. -/
def occursIn (needle hay : String) : Bool :=
  needle.isEmpty || (pySplit hay needle).length != 1

/-- First segment of `s` before `marker` (everything, if absent):
`s.split(marker)[0]`. -/
def cutBefore (s marker : String) : String :=
  (pySplit s marker).headD s

/-- Title extraction from a doc string, src lines 118-119:
`re.split(":param|@param|@return|:return", doc)[0]` keeps the text
before the leftmost of the four markers (successive prefix cuts compute
exactly that), then every line is stripped and the lines are joined
without separators. -/
def collapseTitle (doc : String) : String :=
  let t := cutBefore (cutBefore (cutBefore (cutBefore doc ":param") "@param") "@return") ":return"
  String.join ((pySplit t "\n").map pyStrip)

/-- A declared parameter as reported by `inspect.signature(func)`:
its name and its `default` (which is the `inspect.Parameter.empty`
marker, i.e. `PyVal.emptyMarker`, when no default is declared).  All
modelled parameters are POSITIONAL_OR_KEYWORD, the kind the wrapped
methods in this library declare. -/
structure Param where
  name : String
  default : PyVal
deriving DecidableEq

/-- Descriptor of the callable captured by `_trace` at decoration time:
`func.__name__`, `func.__doc__`, the parameter list of
`inspect.signature(func)` (a bound method's signature excludes the
already-bound receiver), and whether `inspect.ismethod(func)` holds
(true exactly for callables captured already bound, e.g. classmethods
listed by `inspect.getmembers`). -/
structure PyFunc where
  name : String
  doc : Option String
  params : List Param
  isBound : Bool
deriving DecidableEq

/-- src lines 55-87, `is_static_method(klass, attr)` as evaluated at
call time inside the wrapper: the attribute looked up on the class is
the `_trace` wrapper, a plain function whose signature (followed
through `functools.wraps`'s `__wrapped__`) is the original `params`
list.  Underscore names are rejected; an empty positional list means
static; a first positional parameter named `self` means a regular
method; otherwise `inspect.isfunction` of the wrapper is `True`. -/
def is_static_method (f : PyFunc) : Bool :=
  if pyStartsWith f.name "_" then false
  else
    match f.params with
    | [] => true
    | p :: _ => decide (p.name ≠ "self")

/-- src lines 94-114: the wrapper strips the leading call-site argument
exactly when the argument list is nonempty (an empty one raises
`IndexError`, which is swallowed), the first argument is an instance of
the class found for `func` (input `recvMatch`), the name is not
`__init__`, and `inspect.ismethod(func)` or `is_static_method` holds.
Note that a plain instance method (first parameter `self`, captured
unbound) satisfies neither disjunct, so its receiver is NOT stripped. -/
def stripCond (f : PyFunc) (recvMatch : Bool) (a : List PyVal) : Bool :=
  !a.isEmpty && recvMatch && decide (f.name ≠ "__init__")
    && (f.isBound || is_static_method f)

/-- The argument list the wrapper uses after the receiver-stripping
phase (`a = list(a)[1:]` when `stripCond` holds); both the title
binding and the forwarded call use this list. -/
def resolvedArgs (f : PyFunc) (recvMatch : Bool) (a : List PyVal) : List PyVal :=
  if stripCond f recvMatch a then a.tail else a

/-- src lines 120-139: builds `params_text` in declaration order.
For each parameter (skipping the one named `self`, while `enumerate`
still counts it): start from the declared default; when the allure
capability is present, override with `represent(a[index])` if that
index exists (`IndexError` is swallowed, and an empty `args` list skips
the lookup, which coincides with the out-of-range case); finally
override with the raw keyword value if one was passed (`KeyError`
swallowed; an empty `kw` dict skips the lookup, which coincides with
the missing-key case). -/
def bindLoop (allure : Bool) (argsR : List String) (kw : List (String × PyVal)) :
    List Param → Nat → List (String × PyVal)
| [], _ => []
| p :: ps, i =>
  if p.name = "self" then bindLoop allure argsR kw ps (i + 1)
  else
    let v0 := p.default
    let v1 := if allure then
        (match argsR.get? i with
         | some s => PyVal.vstr s
         | none => v0)
      else v0
    let v2 := match kw.lookup p.name with
      | some w => w
      | none => v1
    (p.name, v2) :: bindLoop allure argsR kw ps (i + 1)

/-- The `{form-parameter: actual-argument}` dictionary of src lines
120-139, in insertion order. -/
def bindParams (allure : Bool) (f : PyFunc) (a : List PyVal)
    (kw : List (String × PyVal)) : List (String × PyVal) :=
  bindLoop allure (a.map represent) kw f.params 0

/-- The replacement text of src lines 146-148: a string value has its
surrounding single quotes stripped, anything else goes through
`str()`. -/
def textForm (v : PyVal) : String :=
  match v with
  | PyVal.vstr s => stripQuotes s
  | _ => pyStr v

/-- src lines 141-151: for each bound parameter whose bare name occurs
in the title, replace the text `{{name}}` by the value's text when the
value is truthy (strings get surrounding single quotes stripped, other
values use `str()`), and by the empty string when the value is falsy.
The `inspect._empty` marker, being a class, is truthy and lands in the
first branch. -/
def substitute (title : String) (binds : List (String × PyVal)) : String :=
  binds.foldl
    (fun t pv =>
      if occursIn pv.1 t then
        if pyTruthy pv.2 then
          pyReplace t ("\x7b\x7b" ++ pv.1 ++ "\x7d\x7d") (textForm pv.2)
        else
          pyReplace t ("\x7b\x7b" ++ pv.1 ++ "\x7d\x7d") ""
      else t)
    title

/-- The rendered title of a traced call (src lines 115-155, title part):
without a doc string the title is the bare function name; with one it
is the collapsed leading doc text with placeholders substituted from
the parameter bindings. -/
def renderTitle (allure : Bool) (f : PyFunc) (a : List PyVal)
    (kw : List (String × PyVal)) : String :=
  match f.doc with
  | none => f.name
  | some d => substitute (collapseTitle d) (bindParams allure f a kw)

deriving instance DecidableEq for Except

/-- Observable outcome of one invocation of the `_trace` wrapper:
how many times the original callable ran, the log line emitted by
`logger.info` (if any), and the wrapper's result — `Except.ok none`
models Python falling off the end of `wrapped` and returning `None`,
`Except.ok (some r)` a propagated return value, `Except.error e` a
propagated exception. -/
structure TraceResult (ε ρ : Type) where
  calls : Nat
  logged : Option String
  result : Except ε (Option ρ)
deriving DecidableEq

/-- src lines 90-165, the body of `wrapped`, for a call whose
underlying computation is `impl` (the original callable, abstract).
After the receiver-stripping phase: a documented underscore-named
callable is invoked directly with no tracing; otherwise the title is
rendered and logged with the `[name]: ` label, and then the original
is invoked under a `StepContext` when the allure capability is present
and the name is not `__init__`, invoked directly when the name is
`__init__` — and, when the capability is absent and the name is not
`__init__`, NOT invoked at all: control falls off the end of `wrapped`
and `None` is returned. -/
def tracedCall {ε ρ : Type} (allure : Bool) (f : PyFunc) (recvMatch : Bool)
    (a : List PyVal) (kw : List (String × PyVal)) (impl : Except ε ρ) :
    TraceResult ε ρ :=
  let a2 := resolvedArgs f recvMatch a
  if f.doc.isSome && pyStartsWith f.name "_" then
    { calls := 1, logged := none, result := impl.map some }
  else
    let line := "[" ++ f.name ++ "]: " ++ renderTitle allure f a2 kw
    if f.name = "__init__" then
      { calls := 1, logged := some line, result := impl.map some }
    else if allure then
      { calls := 1, logged := some line, result := impl.map some }
    else
      { calls := 0, logged := some line, result := Except.ok none }

/-- The conventional receiver parameter (`self`, no default). -/
def selfParam : Param := { name := "self", default := PyVal.emptyMarker }

/-- Fixture: the spec's example instance method
`def add(self, a, b): "Adds \x7b\x7ba\x7d\x7d and \x7b\x7bb\x7d\x7d"`
captured unbound by `inspect.getmembers`, with no declared defaults. -/
def fAdd : PyFunc :=
  { name := "add"
    doc := some "Adds \x7b\x7ba\x7d\x7d and \x7b\x7bb\x7d\x7d"
    params := [selfParam, { name := "a", default := PyVal.emptyMarker },
               { name := "b", default := PyVal.emptyMarker }]
    isBound := false }

/-- Fixture: like `fAdd` but with declared defaults `a=7, b=8`. -/
def fAddD : PyFunc :=
  { name := "add"
    doc := some "Adds \x7b\x7ba\x7d\x7d and \x7b\x7bb\x7d\x7d"
    params := [selfParam, { name := "a", default := PyVal.vint 7 },
               { name := "b", default := PyVal.vint 8 }]
    isBound := false }

/-- Fixture: an instance method `do_x(self, x)` documented with a
placeholder for `x`, where `x` has no declared default. -/
def fDoX : PyFunc :=
  { name := "do_x"
    doc := some "Does \x7b\x7bx\x7d\x7d"
    params := [selfParam, { name := "x", default := PyVal.emptyMarker }]
    isBound := false }

/-- Fixture: an instance method `set_val(self, x)` documented with a
placeholder for `x`. -/
def fSetVal : PyFunc :=
  { name := "set_val"
    doc := some "Val \x7b\x7bx\x7d\x7d"
    params := [selfParam, { name := "x", default := PyVal.emptyMarker }]
    isBound := false }

/-- Fixture: a documented public plain function `foo()` with no
parameters. -/
def fFoo : PyFunc :=
  { name := "foo", doc := some "Does things", params := [], isBound := false }

/-- The per-type `Singleton._cache` (a `WeakValueDictionary` keyed by
strings) together with a fresh-identity counter: constructing an
instance hands out the next identity, and two results are the same
Python object exactly when their identities are equal.  Each class has
its own cache (`self._cache` is created per type in
`Singleton.__init__`), so the state is type-scoped. -/
structure CacheState where
  cache : List (String × Nat)
  nextId : Nat
deriving DecidableEq

/-- src lines 40-52, `Singleton.__call__` run without interleaving:
if the derived key is absent, construct a fresh instance and insert it
under the key; otherwise return the cached instance.  Newest entries
are consed on the front, and `List.lookup` finds them first. -/
def singletonCall (s : CacheState) (key : String) : Nat × CacheState :=
  match s.cache.lookup key with
  | none => (s.nextId, { cache := (key, s.nextId) :: s.cache, nextId := s.nextId + 1 })
  | some i => (i, s)

/-- Weak ownership: when every strong reference to the instance under
`key` is dropped, the `WeakValueDictionary` entry disappears.  The
theorems about repeated construction compose `singletonCall` directly,
i.e. they hold in the window where no entry has been collected. -/
def dropInstance (s : CacheState) (key : String) : CacheState :=
  { s with cache := s.cache.filter (fun p => p.1 ≠ key) }

/-- src lines 42-43: the cache key.  `kargs` joins `f"{key}"` over the
positional arguments — `str` of each value; `kkwargs` joins `f"{key}"`
over the kwargs dict — iterating a dict yields its KEYS, so this is
the concatenation of the keyword argument NAMES, not of their values.
(`"" if args else ""` coincides with joining the empty list.) -/
def deriveKey (args : List PyVal) (kwargs : List (String × PyVal)) : String :=
  String.join (args.map pyStr) ++ String.join (kwargs.map Prod.fst)

/-- Modelled from the claim's words (C5), for comparison with
`deriveKey`: the concatenation of the textual form of each positional
argument in order, followed by the textual form of each keyword
argument (its value) in iteration order. -/
def specKeyC5 (args : List PyVal) (kwargs : List (String × PyVal)) : String :=
  String.join (args.map pyStr) ++ String.join (kwargs.map (fun p => pyStr p.2))

/-- Well-formed cache: every cached identity was handed out before the
current value of the fresh counter.  `singletonCall` preserves this,
and it holds for the initial empty cache. -/
def WF (s : CacheState) : Prop :=
  ∀ k i, s.cache.lookup k = some i → i < s.nextId

/-- Position of a thread inside `Singleton.__call__` (src lines 40-52):
`check` evaluates `key not in self._cache` (line 45, OUTSIDE the lock);
`acquire` takes `Singleton._instance_lock` (line 46, blocking);
`construct` runs the constructor and inserts the instance (lines 47-48,
inside the lock; the fresh identity is also stored in the shared class
attribute `Singleton.__instance`); `release` leaves the `with` block;
`ret` reads the shared attribute and returns it (line 52); on the hit
path, `hitCopy` copies the cache entry into the shared attribute (line
51) and `hitRet` returns the shared attribute.  `done` / `hitDone`
mark a finished thread. -/
inductive Phase where
| check
| acquire
| construct
| release
| ret
| done
| hitCopy
| hitRet
| hitDone
deriving DecidableEq

/-- Interleaving model of two threads running `Singleton.__call__` for
the SAME derived key on the SAME type: the single cache slot for that
key, the lock owner, the shared `Singleton.__instance` attribute, how
often the constructor has run, and each thread's position and returned
instance. -/
structure SingState where
  cacheEntry : Option Nat
  lockHeld : Option Bool
  inst : Option Nat
  constructions : Nat
  pc0 : Phase
  pc1 : Phase
  res0 : Option Nat
  res1 : Option Nat
deriving DecidableEq

/-- Position of thread `t` (`false` = thread 0). -/
def getPc (s : SingState) (t : Bool) : Phase :=
  if t then s.pc1 else s.pc0

/-- Move thread `t` to position `n`. -/
def setPc (s : SingState) (t : Bool) (n : Phase) : SingState :=
  if t then { s with pc1 := n } else { s with pc0 := n }

/-- Record the return value of thread `t`. -/
def setRes (s : SingState) (t : Bool) (v : Option Nat) : SingState :=
  if t then { s with res1 := v } else { s with res0 := v }

/-- One atomic step of thread `t` in the interleaving model of
`Singleton.__call__`; a thread whose next action is to acquire a held
lock, or that has finished, does not change the state. -/
def step (s : SingState) (t : Bool) : SingState :=
  match getPc s t with
  | Phase.check => setPc s t (if s.cacheEntry.isSome then Phase.hitCopy else Phase.acquire)
  | Phase.acquire =>
      if s.lockHeld = none then setPc { s with lockHeld := some t } t Phase.construct else s
  | Phase.construct =>
      setPc { s with constructions := s.constructions + 1,
                     cacheEntry := some (s.constructions + 1),
                     inst := some (s.constructions + 1) } t Phase.release
  | Phase.release => setPc { s with lockHeld := none } t Phase.ret
  | Phase.ret => setPc (setRes s t s.inst) t Phase.done
  | Phase.done => s
  | Phase.hitCopy => setPc { s with inst := s.cacheEntry } t Phase.hitRet
  | Phase.hitRet => setPc (setRes s t s.inst) t Phase.hitDone
  | Phase.hitDone => s

/-- Initial state of the race: empty cache, free lock, both threads at
the membership check. -/
def initSing : SingState :=
  { cacheEntry := none, lockHeld := none, inst := none, constructions := 0,
    pc0 := Phase.check, pc1 := Phase.check, res0 := none, res1 := none }

/-- Run a schedule (a list of thread choices) from the initial state. -/
def runSing (sched : List Bool) : SingState :=
  sched.foldl step initSing

/-- Thread `t` is inside the lock-guarded critical section
(construct-and-insert, or about to release). -/
def inCrit (pc : Phase) : Prop :=
  pc = Phase.construct ∨ pc = Phase.release

/-- 1 when a thread at this position has already run the constructor
during this call, 0 otherwise (only the miss path constructs, right
before moving to `release`). -/
def constructedCnt (pc : Phase) : Nat :=
  match pc with
  | Phase.release => 1
  | Phase.ret => 1
  | Phase.done => 1
  | _ => 0

/-- Invariant of every reachable state: a thread in the critical
section owns the lock (so the construct-and-insert block is mutually
exclusive), and the constructor has run exactly once per thread that
has passed it. -/
def SingInv (s : SingState) : Prop :=
  (inCrit s.pc0 → s.lockHeld = some false)
  ∧ (inCrit s.pc1 → s.lockHeld = some true)
  ∧ s.constructions = constructedCnt s.pc0 + constructedCnt s.pc1

/-- The class-name matching configuration consumed by `log`
(`config.CLASS_NAME_STARTSWITH` / `_ENDSWITH` / `_CONTAIN`). -/
structure MatchConfig where
  startswith : List String
  endswith : List String
  contain : List String

/-- A class member's function attribute: either an original function
(identified by a tag) or a `_trace` wrapper around one.  Structural
equality of this type is attribute identity: re-wrapping always
produces a distinct value. -/
inductive PyFn where
| plain (id : Nat)
| traced (f : PyFn)
deriving DecidableEq

/-- One entry of `inspect.getmembers(cls, isfunction or ismethod)`:
the attribute name, the declaring class name
(`obj.__qualname__.split(".")[0]`, preserved through `functools.wraps`
when the member is wrapped), the function attribute, and the `__log`
instrumentation mark (`none` when the attribute is absent;
`setattr(wrapper, "__log", True)` makes it `some true`). -/
structure Member where
  name : String
  className : String
  fn : PyFn
  logMark : Option Bool
deriving DecidableEq

/-- src lines 179-185: a class name matches when it starts with any
configured prefix, ends with any configured suffix, or contains any
configured substring (`find(text) > -1`; note `find("") = 0`, so an
empty configured substring matches everything, while
`startswith(())`/`endswith(())` over an empty list match nothing). -/
def classMatches (cfg : MatchConfig) (cn : String) : Bool :=
  cfg.startswith.any (fun p => pyStartsWith cn p)
    || cfg.endswith.any (fun p => pyEndsWith cn p)
    || cfg.contain.any (fun p => occursIn p cn)

/-- src lines 170-192, body of the `for name, obj in getmembers` loop:
underscore-named members are skipped; members of a matching class are
wrapped with `_trace` and marked, unless the `__log` mark is already
`True` (a mark of `False` is re-wrapped; an absent mark is wrapped). -/
def processMember (cfg : MatchConfig) (m : Member) : Member :=
  if pyStartsWith m.name "_" then m
  else if classMatches cfg m.className then
    match m.logMark with
    | some true => m
    | _ => { m with fn := PyFn.traced m.fn, logMark := some true }
  else m

/-- src lines 168-193, the class decorator `log`: process every member
listed by `inspect.getmembers` and return the (mutated) class. -/
def log (cfg : MatchConfig) (ms : List Member) : List Member :=
  ms.map (processMember cfg)

/-- Severities of the logging facade that `logger.debug` can emit. -/
inductive LogLevel where
| debug
| info
deriving DecidableEq

/-- src lines 313-328, `logger.debug(message, auteadd)`: optionally
prefix the message with the immediate caller's function name
(`sys._getframe(1)`); then look at the caller-of-the-caller
(`sys._getframe(2)` — `grand = none` models the `ValueError` raised
when the stack is too shallow, caught on line 327): a grandcaller
whose name starts with `test_` promotes the record to `logging.info`,
anything else — including the failure case — emits `logging.debug`. -/
def debugEmit (auteadd : Bool) (callerName : String) (grand : Option String)
    (message : String) : LogLevel × String :=
  let m := if auteadd then "[" ++ callerName ++ "]: " ++ message else message
  match grand with
  | some n => if pyStartsWith n "test_" then (LogLevel.info, m) else (LogLevel.debug, m)
  | none => (LogLevel.debug, m)

/-! ## Helper lemmas -/

/-- Every state reachable from `initSing` satisfies `SingInv`:
the invariant holds initially and every step preserves it. -/
theorem singInv_step (s : SingState) (t : Bool) (h : SingInv s) : SingInv (step s t) := by
  obtain ⟨h0, h1, hc⟩ := h
  cases t
  case false =>
    cases hp : s.pc0 <;>
      simp_all [step, getPc, setPc, setRes, SingInv, inCrit, constructedCnt]
    case check =>
      constructor
      · intro hcr
        cases hce : s.cacheEntry.isSome <;> rw [hce] at hcr <;> simp at hcr
      · cases hce : s.cacheEntry.isSome <;> simp [hce]
    case acquire =>
      split_ifs with hl <;> simp_all [inCrit, constructedCnt]
    case construct => omega
  case true =>
    cases hp : s.pc1 <;>
      simp_all [step, getPc, setPc, setRes, SingInv, inCrit, constructedCnt]
    case check =>
      constructor
      · intro hcr
        cases hce : s.cacheEntry.isSome <;> rw [hce] at hcr <;> simp at hcr
      · cases hce : s.cacheEntry.isSome <;> simp [hce]
    case acquire =>
      split_ifs with hl <;> simp_all [inCrit, constructedCnt]

/-- The invariant holds after running any schedule. -/
theorem singInv_run (sched : List Bool) : SingInv (runSing sched) := by
  have base : SingInv initSing := by
    refine ⟨?_, ?_, rfl⟩ <;> intro h <;> simp [initSing, inCrit] at h
  have : ∀ (l : List Bool) (s : SingState), SingInv s → SingInv (l.foldl step s) := by
    intro l
    induction l with
    | nil => intro s hs; exact hs
    | cons t l ih => intro s hs; exact ih (step s t) (singInv_step s t hs)
  exact this sched initSing base

/-- Calling the singleton twice in a row with the same key yields the
same instance: the first call leaves (or creates) the entry the second
call finds. -/
theorem singleton_repeat (s : CacheState) (k : String) :
    (singletonCall (singletonCall s k).2 k).1 = (singletonCall s k).1 := by
  unfold singletonCall
  cases h : s.cache.lookup k with
  | none => simp [h, List.lookup]
  | some i => simp [h]

/-- Appending the empty string on the right is the identity. -/
theorem str_append_empty (s : String) : s ++ "" = s := by
  cases s with
  | mk data => show String.mk (data ++ []) = String.mk data
               rw [List.append_nil]

/-- One pass of the instrumentor's member loop is idempotent: a member
it wrapped carries the `__log` mark of `True` and is skipped the second
time; untouched members are untouched again. -/
theorem processMember_idem (cfg : MatchConfig) (m : Member) :
    processMember cfg (processMember cfg m) = processMember cfg m := by
  unfold processMember
  by_cases h1 : pyStartsWith m.name "_"
  · simp [h1]
  · by_cases h2 : classMatches cfg m.className
    · cases hm : m.logMark with
      | none => simp [h1, h2]
      | some b => cases b <;> simp [h1, h2, hm]
    · simp [h1, h2]

/-- The parameter-binding loop never reads the argument slot of the
receiver: from index 1 on, bindings over `x :: l` and `y :: l` agree,
whatever the head is. -/
theorem bindLoop_receiver_indep (allure : Bool) (kw : List (String × PyVal))
    (x y : String) (l : List String) (ps : List Param) :
    ∀ i, 1 ≤ i → bindLoop allure (x :: l) kw ps i = bindLoop allure (y :: l) kw ps i := by
  induction ps with
  | nil => intro i hi; rfl
  | cons p ps ih =>
    intro i hi
    obtain ⟨j, rfl⟩ : ∃ j, i = j + 1 := ⟨i - 1, by omega⟩
    unfold bindLoop
    by_cases hs : p.name = "self"
    · simp only [hs, if_true]
      exact ih (j + 2) (by omega)
    · simp only [hs, if_false, List.get?_cons_succ]
      rw [ih (j + 2) (by omega)]

/-! ## Claim theorems -/

/-- Claim C1 (code bug evidence).  The claim says the trace wrapper
always invokes the original callable exactly once and returns its
result (or propagates its failure), with or without the step-reporting
capability.  With the capability present this holds — including
unchanged failure propagation — but with the capability absent the
wrapper of a documented public callable never invokes the original and
falls off the end returning `None`: control reaches
`if func.__name__ != "__init__": if ALLURE_STEP: ...` (src lines
157-161) and no branch calls `func`. -/
theorem c1_wrapped_without_capability_skips_call :
    (tracedCall false fFoo true [] [] (Except.ok (42 : Nat) : Except String Nat)).calls = 0
    ∧ (tracedCall false fFoo true [] [] (Except.ok (42 : Nat) : Except String Nat)).result
        = Except.ok none
    ∧ (tracedCall true fFoo true [] [] (Except.ok (42 : Nat) : Except String Nat)).calls = 1
    ∧ (tracedCall true fFoo true [] [] (Except.ok (42 : Nat) : Except String Nat)).result
        = Except.ok (some 42)
    ∧ (tracedCall true fFoo true [] [] (Except.error "boom" : Except String Nat)).result
        = Except.error "boom" := by
  decide

/-- Claim C2 counterexample.  The claim says the check-then-construct
sequence is entirely guarded by the lock, so racing first users of the
same key construct exactly once and all receive the retained instance.
In the interleaving where both threads pass the membership check (which
is OUTSIDE the lock, src line 45) before either acquires the lock, the
constructor runs twice, the two callers receive different instances,
and the first caller's instance is not the one the cache retains. -/
theorem c2_double_construction_interleaving :
    (runSing [false, true, false, false, false, false, true, true, true, true]).constructions = 2
    ∧ (runSing [false, true, false, false, false, false, true, true, true, true]).res0
        ≠ (runSing [false, true, false, false, false, false, true, true, true, true]).res1
    ∧ (runSing [false, true, false, false, false, false, true, true, true, true]).res0
        ≠ (runSing [false, true, false, false, false, false, true, true, true, true]).cacheEntry := by
  decide

/-- Claim C2 (amended).  What the lock does guarantee: in every
interleaving of two racing callers, the construct-and-insert block is
mutually exclusive (no two threads occupy it at once), and the
constructor runs at most once per caller — hence at most twice — but
not exactly once, because the membership check precedes the lock. -/
theorem c2_lock_guards_construct_insert (sched : List Bool) :
    (¬ (inCrit (runSing sched).pc0 ∧ inCrit (runSing sched).pc1))
    ∧ (runSing sched).constructions ≤ 2 := by
  obtain ⟨h0, h1, hc⟩ := singInv_run sched
  constructor
  · rintro ⟨hc0, hc1⟩
    have := (h0 hc0).symm.trans (h1 hc1)
    simp at this
  · rw [hc]
    unfold constructedCnt
    split <;> split <;> omega

/-- Claim C3.  Applying the class instrumentor twice yields, member by
member, the same wrapped-attribute identity as applying it once: a
member already carrying the `__log` mark is never re-wrapped. -/
theorem c3_log_idempotent (cfg : MatchConfig) (ms : List Member) :
    log cfg (log cfg ms) = log cfg ms := by
  unfold log
  rw [List.map_map]
  induction ms with
  | nil => rfl
  | cons m ms ih =>
    simp only [List.map_cons, Function.comp_apply, processMember_idem]
    simpa using ih

/-- Claim C4.  While no entry has been collected: a second construction
with the same key returns the identical instance, and a construction
with a different (uncached) key constructs a fresh instance, distinct
from the first one. -/
theorem c4_singleton_keyed_identity (s : CacheState) (k1 k2 : String) (hwf : WF s)
    (hne : k1 ≠ k2) (h2 : s.cache.lookup k2 = none) :
    ((singletonCall (singletonCall s k1).2 k1).1 = (singletonCall s k1).1)
    ∧ ((singletonCall (singletonCall s k1).2 k2).1 ≠ (singletonCall s k1).1)
    ∧ ((singletonCall (singletonCall s k1).2 k2).1 = (singletonCall s k1).2.nextId) := by
  refine ⟨singleton_repeat s k1, ?_⟩
  have hbeq : (k2 == k1) = false := by
    simp [hne.symm]
  cases h : s.cache.lookup k1 with
  | none =>
    unfold singletonCall
    simp [h, List.lookup, hbeq, h2]
  | some i =>
    have hlt : i < s.nextId := hwf k1 i h
    unfold singletonCall
    simp [h, h2]
    omega

/-- Claim C4 witness: the theorem applied to the empty, well-formed
cache and the two distinct keys "a" and "b". -/
theorem c4_singleton_keyed_identity_witness :
    (WF { cache := [], nextId := 0 } ∧ "a" ≠ "b"
      ∧ ({ cache := [], nextId := 0 } : CacheState).cache.lookup "b" = none)
    ∧ (((singletonCall (singletonCall { cache := [], nextId := 0 } "a").2 "a").1
          = (singletonCall { cache := [], nextId := 0 } "a").1)
       ∧ ((singletonCall (singletonCall { cache := [], nextId := 0 } "a").2 "b").1
          ≠ (singletonCall { cache := [], nextId := 0 } "a").1)
       ∧ ((singletonCall (singletonCall { cache := [], nextId := 0 } "a").2 "b").1
          = (singletonCall { cache := [], nextId := 0 } "a").2.nextId)) := by
  refine ⟨⟨?_, by decide, by decide⟩, ?_⟩
  · intro k i h
    simp [List.lookup] at h
  · exact c4_singleton_keyed_identity { cache := [], nextId := 0 } "a" "b"
      (fun k i h => by simp [List.lookup] at h) (by decide) (by decide)

/-- Claim C5 counterexample.  The claim derives the key from the
textual form of each keyword argument; the code iterates the kwargs
dict, which yields its KEYS, so the key concatenates the keyword
argument names.  For the call `T(level=1)` the code's key is "level"
while the claim's derivation gives "1", and the code collides
`T(level=1)` with `T(level=2)` although their arguments stringify
differently. -/
theorem c5_key_ignores_kwarg_values_counterexample :
    deriveKey [] [("level", PyVal.vint 1)] ≠ specKeyC5 [] [("level", PyVal.vint 1)]
    ∧ deriveKey [] [("level", PyVal.vint 1)] = deriveKey [] [("level", PyVal.vint 2)]
    ∧ specKeyC5 [] [("level", PyVal.vint 1)] ≠ specKeyC5 [] [("level", PyVal.vint 2)] := by
  decide

/-- Claim C5 (amended).  The key is the separator-free concatenation of
`str` of each positional argument in order followed by each keyword
argument's NAME in iteration order: keyword values are ignored (calls
differing only in keyword values derive the same key), and two calls
with equal derived keys collide onto one cache entry (the second call
returns the instance the first one cached). -/
theorem c5_key_concatenates_names (args : List PyVal)
    (kw1 kw2 : List (String × PyVal)) (s : CacheState)
    (h : kw1.map Prod.fst = kw2.map Prod.fst) :
    deriveKey args kw1 = deriveKey args kw2
    ∧ (singletonCall (singletonCall s (deriveKey args kw1)).2 (deriveKey args kw2)).1
        = (singletonCall s (deriveKey args kw1)).1 := by
  have hk : deriveKey args kw1 = deriveKey args kw2 := by
    unfold deriveKey; rw [h]
  refine ⟨hk, ?_⟩
  rw [hk]
  exact singleton_repeat s (deriveKey args kw2)

/-- Claim C5 witness: the amended theorem at the calls `T(level=1)` and
`T(level=2)` on the empty cache. -/
theorem c5_key_concatenates_names_witness :
    (([("level", PyVal.vint 1)].map Prod.fst = [("level", PyVal.vint 2)].map Prod.fst)
      ∧ deriveKey [] [("level", PyVal.vint 1)] = deriveKey [] [("level", PyVal.vint 2)]
      ∧ (singletonCall (singletonCall { cache := [], nextId := 0 }
            (deriveKey [] [("level", PyVal.vint 1)])).2
            (deriveKey [] [("level", PyVal.vint 2)])).1
          = (singletonCall { cache := [], nextId := 0 }
              (deriveKey [] [("level", PyVal.vint 1)])).1) := by
  refine ⟨by decide, ?_, ?_⟩
  · exact (c5_key_concatenates_names [] [("level", PyVal.vint 1)] [("level", PyVal.vint 2)]
      { cache := [], nextId := 0 } (by decide)).1
  · exact (c5_key_concatenates_names [] [("level", PyVal.vint 1)] [("level", PyVal.vint 2)]
      { cache := [], nextId := 0 } (by decide)).2

/-- Claim C6 counterexample.  The claim says a placeholder for a
parameter with no supplied value and no default renders as the empty
string.  The binding holds `inspect.Parameter.empty`, which is a class
and therefore truthy, so src line 143 `if argument:` takes the
replacement branch and substitutes `str(inspect._empty)`: the title of
`do_x(self, x)` called with no `x` renders as
"Does <class 'inspect._empty'>", not as "Does ". -/
theorem c6_missing_binding_renders_marker_counterexample :
    renderTitle false fDoX [PyVal.obj 0] [] = "Does <class \x27inspect._empty\x27>"
    ∧ renderTitle false fDoX [PyVal.obj 0] [] ≠ "Does " := by
  decide

/-- Claim C6 (amended).  For a documented method with a placeholder for
a declared parameter `x` that receives no positional value, no keyword
value and has no declared default, title rendering never raises (the
embedding is total) and the placeholder is replaced by the textual
representation of the absent-value marker, `<class 'inspect._empty'>`,
rather than by the empty string — whether or not the step-reporting
capability is present and whatever other keyword arguments are
passed. -/
theorem c6_missing_binding_renders_marker (allure : Bool)
    (kw : List (String × PyVal)) (hkw : kw.lookup "x" = none) :
    renderTitle allure fDoX [PyVal.obj 0] kw = "Does <class \x27inspect._empty\x27>" := by
  have hb : bindParams allure fDoX [PyVal.obj 0] kw = [("x", PyVal.emptyMarker)] := by
    cases allure <;> simp [bindParams, fDoX, selfParam, bindLoop, hkw]
  show substitute (collapseTitle "Does \x7b\x7bx\x7d\x7d")
      (bindParams allure fDoX [PyVal.obj 0] kw) = _
  rw [hb]
  decide

/-- Claim C6 witness: the amended theorem with the capability present
and an unrelated keyword argument. -/
theorem c6_missing_binding_renders_marker_witness :
    (([("y", PyVal.vint 1)] : List (String × PyVal)).lookup "x" = none)
    ∧ renderTitle true fDoX [PyVal.obj 0] [("y", PyVal.vint 1)]
        = "Does <class \x27inspect._empty\x27>" :=
  ⟨by decide, c6_missing_binding_renders_marker true [("y", PyVal.vint 1)] (by decide)⟩

/-- Claim C7 counterexample.  The claim says `add(self, a, b)` with doc
"Adds \x7b\x7ba\x7d\x7d and \x7b\x7bb\x7d\x7d" invoked with positional
arguments 2 and 3 renders "Adds 2 and 3".  Positional arguments are
only bound under `if ALLURE_STEP:` (src line 128): with the capability
absent the placeholders keep their absent-value markers and the logged
line is not "[add]: Adds 2 and 3". -/
theorem c7_positional_binding_needs_capability_counterexample :
    (tracedCall false fAdd true [PyVal.obj 0, PyVal.vint 2, PyVal.vint 3] []
        (Except.ok (0 : Nat) : Except String Nat)).logged
      = some "[add]: Adds <class \x27inspect._empty\x27> and <class \x27inspect._empty\x27>"
    ∧ (tracedCall false fAdd true [PyVal.obj 0, PyVal.vint 2, PyVal.vint 3] []
        (Except.ok (0 : Nat) : Except String Nat)).logged
      ≠ some "[add]: Adds 2 and 3" := by
  decide

/-- Claim C7 (amended).  With the step-reporting capability present,
`add(self, a, b)` invoked with positional 2 and 3 logs
"[add]: Adds 2 and 3"; a positional argument overrides a declared
default (`fAddD` declares `a=7, b=8`); but an explicit keyword value
overrides the positional binding for that parameter, not the other way
round (keyword binding runs after positional binding, src lines
135-139). -/
theorem c7_positional_binding_with_capability :
    (tracedCall true fAdd true [PyVal.obj 0, PyVal.vint 2, PyVal.vint 3] []
        (Except.ok (0 : Nat) : Except String Nat)).logged = some "[add]: Adds 2 and 3"
    ∧ (tracedCall true fAddD true [PyVal.obj 0, PyVal.vint 2, PyVal.vint 3] []
        (Except.ok (0 : Nat) : Except String Nat)).logged = some "[add]: Adds 2 and 3"
    ∧ (tracedCall true fAdd true [PyVal.obj 0, PyVal.vint 2, PyVal.vint 3]
        [("a", PyVal.vint 9)]
        (Except.ok (0 : Nat) : Except String Nat)).logged = some "[add]: Adds 9 and 3" := by
  decide

/-- Claim C8 counterexample.  The claim says every parameter bound to a
present non-string value — including 0 and False — renders via its
default text representation.  src line 143 `if argument:` sends every
FALSY bound value to the empty-replacement branch: `set_val(self, x)`
called with `x=0` renders "Val ", not "Val 0". -/
theorem c8_falsy_value_renders_empty_counterexample :
    renderTitle false fSetVal [PyVal.obj 0] [("x", PyVal.vint 0)] = "Val "
    ∧ renderTitle false fSetVal [PyVal.obj 0] [("x", PyVal.vint 0)] ≠ "Val 0" := by
  decide

/-- Claim C8 (amended).  A parameter bound to a TRUTHY value has its
placeholder replaced by the value's text form — strings with their
surrounding single quotes stripped, any other value via `str()` — while
a parameter bound to a FALSY value (0, False, the empty string, None)
has its placeholder replaced by the empty string. -/
theorem c8_truthy_renders_text_falsy_renders_empty (v : PyVal) :
    renderTitle false fSetVal [PyVal.obj 0] [("x", v)]
      = "Val " ++ (if pyTruthy v then textForm v else "") := by
  have key : ∀ rep : String,
      pyReplace (collapseTitle "Val \x7b\x7bx\x7d\x7d") ("\x7b\x7b" ++ "x" ++ "\x7d\x7d") rep
        = "Val " ++ rep := by
    intro rep
    show pyJoin rep ["Val ", ""] = "Val " ++ rep
    show "Val " ++ rep ++ "" = "Val " ++ rep
    rw [str_append_empty]
  show (if occursIn "x" (collapseTitle "Val \x7b\x7bx\x7d\x7d") = true then
          if pyTruthy v = true then
            pyReplace (collapseTitle "Val \x7b\x7bx\x7d\x7d")
              ("\x7b\x7b" ++ "x" ++ "\x7d\x7d") (textForm v)
          else
            pyReplace (collapseTitle "Val \x7b\x7bx\x7d\x7d")
              ("\x7b\x7b" ++ "x" ++ "\x7d\x7d") ""
        else collapseTitle "Val \x7b\x7bx\x7d\x7d")
      = "Val " ++ (if pyTruthy v = true then textForm v else "")
  rw [if_pos (show occursIn "x" (collapseTitle "Val \x7b\x7bx\x7d\x7d") = true by decide)]
  by_cases h : pyTruthy v = true
  · rw [if_pos h, if_pos h, key]
  · rw [if_neg h, if_neg h, key]

/-- Claim C9 counterexample.  The claim says the leading receiver
argument is dropped before templating.  For a plain instance method
captured unbound (here `add(self, a, b)`), `inspect.ismethod(func)` and
`is_static_method` are both false (the first parameter is `self`), so
the strip of src line 112 does not run: the argument list used for
templating still has the receiver at its head. -/
theorem c9_receiver_not_dropped_counterexample :
    resolvedArgs fAdd true [PyVal.obj 7, PyVal.vint 2, PyVal.vint 3]
      = [PyVal.obj 7, PyVal.vint 2, PyVal.vint 3]
    ∧ resolvedArgs fAdd true [PyVal.obj 7, PyVal.vint 2, PyVal.vint 3]
      ≠ [PyVal.vint 2, PyVal.vint 3] := by
  decide

/-- Claim C9 (amended).  For every traced plain instance method (first
declared parameter `self`, captured unbound) the rendered title — and
hence the logged line — is independent of the receiver: the `self`
parameter is excluded from binding and positional binding starts at
index 1, so the receiver's slot is never read, even though the leading
receiver argument is NOT physically dropped (it is dropped only for
already-bound and static callables). -/
theorem c9_title_ignores_receiver {ε ρ : Type} (f : PyFunc) (hb : f.isBound = false)
    (p : Param) (ps : List Param) (hp : f.params = p :: ps) (hself : p.name = "self")
    (allure : Bool) (r r2 : PyVal) (rest : List PyVal)
    (kw : List (String × PyVal)) (impl : Except ε ρ) :
    (tracedCall allure f true (r :: rest) kw impl).logged
      = (tracedCall allure f true (r2 :: rest) kw impl).logged := by
  have hstatic : is_static_method f = false := by
    unfold is_static_method
    rw [hp]
    by_cases h : pyStartsWith f.name "_" <;> simp [h, hself]
  have hstrip : ∀ v : PyVal, stripCond f true (v :: rest) = false := by
    intro v
    unfold stripCond
    rw [hb, hstatic]
    simp
  have hres : ∀ v : PyVal, resolvedArgs f true (v :: rest) = v :: rest := by
    intro v; unfold resolvedArgs; rw [hstrip]; simp
  have hrt : renderTitle allure f (r :: rest) kw = renderTitle allure f (r2 :: rest) kw := by
    unfold renderTitle
    cases hd : f.doc with
    | none => rfl
    | some d =>
      unfold bindParams
      rw [hp]
      have e1 : ∀ x : PyVal,
          bindLoop allure (represent x :: rest.map represent) kw (p :: ps) 0
            = bindLoop allure (represent x :: rest.map represent) kw ps 1 := by
        intro x
        conv_lhs => rw [bindLoop, if_pos hself]
      show substitute (collapseTitle d)
            (bindLoop allure (represent r :: rest.map represent) kw (p :: ps) 0)
          = substitute (collapseTitle d)
            (bindLoop allure (represent r2 :: rest.map represent) kw (p :: ps) 0)
      rw [e1, e1,
        bindLoop_receiver_indep allure kw (represent r) (represent r2)
          (rest.map represent) ps 1 (le_refl 1)]
  unfold tracedCall
  rw [hres r, hres r2]
  simp only [hrt]

/-- Claim C9 witness: the amended theorem at `add(self, a, b)` under
two different receivers. -/
theorem c9_title_ignores_receiver_witness :
    (fAdd.isBound = false ∧ fAdd.params.head?.map Param.name = some "self")
    ∧ (tracedCall true fAdd true [PyVal.obj 0, PyVal.vint 2, PyVal.vint 3] []
        (Except.ok (0 : Nat) : Except String Nat)).logged
      = (tracedCall true fAdd true [PyVal.obj 5, PyVal.vint 2, PyVal.vint 3] []
        (Except.ok (0 : Nat) : Except String Nat)).logged :=
  ⟨⟨rfl, rfl⟩,
    c9_title_ignores_receiver fAdd rfl selfParam
      [{ name := "a", default := PyVal.emptyMarker },
       { name := "b", default := PyVal.emptyMarker }]
      rfl rfl true (PyVal.obj 0) (PyVal.obj 5) [PyVal.vint 2, PyVal.vint 3] []
      (Except.ok 0)⟩

/-- Claim C10.  `logger.debug` emits at informational severity exactly
when the caller-of-the-caller's function name starts with `test_`; in
every other case — including the `ValueError` from a too-shallow stack,
modelled by `grand = none` — it emits at debug severity. -/
theorem c10_debug_promoted_for_test_grandcaller (auteadd : Bool) (caller msg : String)
    (grand : Option String) :
    ((debugEmit auteadd caller grand msg).1 = LogLevel.info
      ↔ ∃ n, grand = some n ∧ pyStartsWith n "test_" = true)
    ∧ (debugEmit auteadd caller none msg).1 = LogLevel.debug := by
  constructor
  · cases grand with
    | none => simp [debugEmit]
    | some n =>
      by_cases h : pyStartsWith n "test_" <;> simp [debugEmit, h]
  · simp [debugEmit]

end Funnylog2

